import Mathlib

/-!
# ks-serviceaccount controller: reconciliation of service accounts

A shallow embedding of `pkg/controller/ksserviceaccount/serviceaccount_controller.go`.

* Kubernetes objects are records holding the fields the controller reads or writes.
* The object client (`client.Client`) is an explicit `Store` threaded through every
  function.  Every client call is appended to `Store.log`; a call whose index in the log
  is marked in `Env.faults` fails with a store failure that is not a not-found error;
  not-found is decided by the content of the store, and a secret may also be gone by
  the time it is deleted (`Env.gone`).
* The store names a created object and erases a terminating object left without
  finalizers the way the API server does.
* A Go function returning `error` returns `Option Err` (`none` is `nil`).
* A run-time nil pointer dereference is the outcome `Outcome.nilPointerDereference`.
* Logging calls (`logger`, `klog`) have no effect on the store and are left out; events
  of the event recorder are kept in `Store.events`.
-/

namespace KsServiceAccount

/-! ## Data model -/

/-- Go `map[string]string`, as an association list; a nil map is the empty list. -/
abbrev Annotations := List (String × String)

/-- Go map read `m[k]`: the empty string when the key is absent. -/
def mapGet (m : Annotations) (k : String) : String :=
  (m.lookup k).getD ""

/-- Go map write `m[k] = v`: every other key keeps its value. -/
def mapSet (m : Annotations) (k v : String) : Annotations :=
  m.filter (fun e => decide (e.1 ≠ k)) ++ [(k, v)]

/-- Fields of `v1.ObjectReference` used by the controller. -/
structure ObjectReference where
  Namespace : String
  Name : String
deriving DecidableEq, Repr

/-- Request key `types.NamespacedName`. -/
structure NamespacedName where
  Namespace : String
  Name : String
deriving DecidableEq, Repr

/-- Fields of `corev1alpha1.ServiceAccount` used by the controller.  `DeletionTimestamp`
is the `*metav1.Time` pointer: `none` is nil, `some t` an instant counted from the Go
zero time. -/
structure ServiceAccount where
  Namespace : String
  Name : String
  Finalizers : List String
  DeletionTimestamp : Option Nat
  Secrets : List ObjectReference
deriving DecidableEq, Repr

/-- Fields of `v1.Secret` used by the controller. -/
structure Secret where
  Namespace : String
  Name : String
  GenerateName : String
  Annotations : Annotations
  Type_ : String
deriving DecidableEq, Repr

/-- The `*v1.SecretProjection` of a volume projection. -/
structure SecretProjection where
  Name : String
deriving DecidableEq, Repr

/-- One `v1.VolumeProjection`; `Secret` is a pointer, nil for other kinds of source. -/
structure VolumeProjection where
  Secret : Option SecretProjection
deriving DecidableEq, Repr

/-- The `v1.ProjectedVolumeSource` of a volume. -/
structure ProjectedVolumeSource where
  Sources : List VolumeProjection
deriving DecidableEq, Repr

/-- One `v1.Volume`; `Projected` is a pointer, nil for volumes of another kind. -/
structure Volume where
  Name : String
  Projected : Option ProjectedVolumeSource
deriving DecidableEq, Repr

/-- One `metav1.OwnerReference`. -/
structure OwnerReference where
  Kind : String
  Name : String
deriving DecidableEq, Repr

/-- Fields of `v1.Pod` used by the controller. -/
structure Pod where
  Namespace : String
  Name : String
  Annotations : Annotations
  Volumes : List Volume
  OwnerReferences : List OwnerReference
deriving DecidableEq, Repr

/-- Fields of `appsv1.ReplicaSet` used by the controller. -/
structure ReplicaSet where
  Namespace : String
  Name : String
  OwnerReferences : List OwnerReference
deriving DecidableEq, Repr

/-- Fields shared by `appsv1.Deployment`, `appsv1.StatefulSet` and `appsv1.DaemonSet`:
the key and `Spec.Template.ObjectMeta.Annotations`. -/
structure Workload where
  Namespace : String
  Name : String
  TemplateAnnotations : Annotations
deriving DecidableEq, Repr

/-- Errors seen by the controller. -/
inductive Err where
  | notFound (resource ns name : String)
  | alreadyExists (resource ns name : String)
  | storeFailure (msg : String)
  | unsupportedSecretType (name type : String)
  | incorrectSubjectName (saName : String)
deriving DecidableEq, Repr

/-- Go `errors.IsNotFound`. -/
def Err.IsNotFound : Err → Bool
  | .notFound _ _ _ => true
  | _ => false

/-- Text of `err.Error()`. -/
def Err.Error : Err → String
  | .notFound r _ n => r ++ " \"" ++ n ++ "\" not found"
  | .alreadyExists r _ n => r ++ " \"" ++ n ++ "\" already exists"
  | .storeFailure msg => msg
  | .unsupportedSecretType n t => "unsupported secret " ++ n ++ " type: " ++ t
  | .incorrectSubjectName n => "incorrect subject name " ++ n

/-- Go `client.IgnoreNotFound`. -/
def IgnoreNotFound (e : Err) : Option Err :=
  if e.IsNotFound then none else some e

/-- One call of the object client, with its arguments. -/
inductive Call where
  | getServiceAccount (ns name : String)
  | updateServiceAccount (obj : ServiceAccount)
  | getSecret (ns name : String)
  | createSecret (obj : Secret)
  | deleteSecret (ns name : String)
  | listPods (ns : String)
  | getReplicaSet (ns name : String)
  | getDeployment (ns name : String)
  | updateDeployment (obj : Workload)
  | getStatefulSet (ns name : String)
  | updateStatefulSet (obj : Workload)
  | getDaemonSet (ns name : String)
  | updateDaemonSet (obj : Workload)
deriving DecidableEq, Repr

/-- A call that creates, updates or deletes an object. -/
def Call.isWrite : Call → Bool
  | .updateServiceAccount _ => true
  | .createSecret _ => true
  | .deleteSecret _ _ => true
  | .updateDeployment _ => true
  | .updateStatefulSet _ => true
  | .updateDaemonSet _ => true
  | _ => false

/-- A call that writes a service account. -/
def Call.isServiceAccountWrite : Call → Bool
  | .updateServiceAccount _ => true
  | _ => false

/-- A call that creates an object. -/
def Call.isCreate : Call → Bool
  | .createSecret _ => true
  | _ => false

/-- A call that writes a service account or a secret. -/
def Call.isLifecycleWrite : Call → Bool
  | .updateServiceAccount _ => true
  | .createSecret _ => true
  | .deleteSecret _ _ => true
  | _ => false

/-- An event handed to the event recorder, with the key of the object it is about. -/
structure Event where
  Namespace : String
  Name : String
  Type_ : String
  Reason : String
  Message : String
deriving DecidableEq, Repr

/-- What the controller reads from outside the store: constants declared in other
packages, the failures of store calls, the suffixes the store appends to a
`GenerateName`, and the clock. -/
structure Env where
  /-- Constant `corev1alpha1.SecretTypeServiceAccountToken`. -/
  SecretTypeServiceAccountToken : String
  /-- Constant `corev1alpha1.ServiceAccountName`, an annotation key of secrets. -/
  ServiceAccountName : String
  /-- Constant `AnnotationServiceAccountName`, an annotation key of pods. -/
  AnnotationServiceAccountName : String
  /-- Constant `ServiceAccountVolumeName`. -/
  ServiceAccountVolumeName : String
  /-- The store call with index `n` fails with `storeFailure msg` when `faults n = some msg`. -/
  faults : Nat → Option String
  /-- The secret that the delete issued as store call `n` is about has been removed by
  another client by then, so the delete answers not-found. -/
  gone : Nat → Bool
  /-- Suffix appended to `GenerateName` by a create issued as call `n`. -/
  nameSuffix : Nat → String
  /-- Text of `metav1.Now().String()` after `n` store calls. -/
  now : Nat → String

/-- The object store, the log of client calls and the recorded events. -/
structure Store where
  serviceAccounts : List ServiceAccount
  secrets : List Secret
  pods : List Pod
  replicaSets : List ReplicaSet
  deployments : List Workload
  statefulSets : List Workload
  daemonSets : List Workload
  log : List Call
  events : List Event
deriving DecidableEq, Repr

/-- Result of a function that may stop with a run-time nil pointer dereference. -/
inductive Outcome (α : Type) where
  | ret (a : α)
  | nilPointerDereference
deriving DecidableEq, Repr

/-! ## Object client -/

/-- Append a call to the log. -/
def Store.record (s : Store) (c : Call) : Store :=
  { s with log := s.log ++ [c] }

/-- Append an event to the recorded events (`EventRecorder.Event`). -/
def Store.event (s : Store) (e : Event) : Store :=
  { s with events := s.events ++ [e] }

/-- The failure injected into the next store call, if any. -/
def Env.fault (env : Env) (s : Store) : Option Err :=
  (env.faults s.log.length).map Err.storeFailure

/-- The secret stored under a key. -/
def Store.findSecret (s : Store) (ns name : String) : Option Secret :=
  s.secrets.find? (fun x => decide (x.Namespace = ns ∧ x.Name = name))

/-- The service account stored under a key. -/
def Store.findServiceAccount (s : Store) (ns name : String) : Option ServiceAccount :=
  s.serviceAccounts.find? (fun x => decide (x.Namespace = ns ∧ x.Name = name))

/-- Replace the service account stored under the key of `obj`. -/
def replaceServiceAccount (xs : List ServiceAccount) (obj : ServiceAccount) :
    List ServiceAccount :=
  xs.map (fun x => if x.Namespace = obj.Namespace ∧ x.Name = obj.Name then obj else x)

/-- The service accounts left after the one stored under the key of `obj` is erased. -/
def eraseServiceAccount (xs : List ServiceAccount) (obj : ServiceAccount) :
    List ServiceAccount :=
  xs.filter (fun x => decide (¬ (x.Namespace = obj.Namespace ∧ x.Name = obj.Name)))

/-- The stored service accounts after an update of `old` to `obj`, as the API server
does it: an object for which a deletion was requested (its deletion timestamp is set)
is erased by the update that leaves it without finalizers, otherwise it is replaced. -/
def updatedServiceAccounts (xs : List ServiceAccount) (old obj : ServiceAccount) :
    List ServiceAccount :=
  if old.DeletionTimestamp ≠ none ∧ obj.Finalizers = [] then eraseServiceAccount xs obj
  else replaceServiceAccount xs obj

/-- Constant `MaxGeneratedNameLength` of the API server: 63 bytes of a name less the 5
bytes of the suffix. -/
def MaxGeneratedNameLength : Nat := 58

/-- The longest initial run of characters that fits in `n` bytes of UTF-8.  The names
of Kubernetes objects are ASCII, where this is the Go slice `base[:n]`. -/
def takeBytes : Nat → List Char → List Char
  | _, [] => []
  | n, c :: cs => if c.utf8Size ≤ n then c :: takeBytes (n - c.utf8Size) cs else []

/-- The base of a generated name, as the API server cuts it: `GenerateName`, reduced
to its first `MaxGeneratedNameLength` bytes when it is longer. -/
def cutGenerateName (base : String) : String :=
  if base.utf8ByteSize > MaxGeneratedNameLength then
    String.mk (takeBytes MaxGeneratedNameLength base.data)
  else base

/-- The replica set stored under a key. -/
def Store.findReplicaSet (s : Store) (ns name : String) : Option ReplicaSet :=
  s.replicaSets.find? (fun x => decide (x.Namespace = ns ∧ x.Name = name))

/-- The workload stored under a key in one of the three workload collections. -/
def findWorkload (ws : List Workload) (ns name : String) : Option Workload :=
  ws.find? (fun x => decide (x.Namespace = ns ∧ x.Name = name))

/-- Replace the workload stored under the key of `obj`. -/
def replaceWorkload (ws : List Workload) (obj : Workload) : List Workload :=
  ws.map (fun x => if x.Namespace = obj.Namespace ∧ x.Name = obj.Name then obj else x)

namespace Client

/-- Client call `Get` of a service account. -/
def getServiceAccount (env : Env) (s : Store) (ns name : String) :
    Except Err ServiceAccount × Store :=
  let s1 := s.record (.getServiceAccount ns name)
  match env.fault s with
  | some e => (.error e, s1)
  | none =>
    match s.findServiceAccount ns name with
    | some x => (.ok x, s1)
    | none => (.error (.notFound "serviceaccounts" ns name), s1)

/-- Client call `Update` of a service account: replaces the stored object of that key,
or erases it when it is terminating and left without finalizers. -/
def updateServiceAccount (env : Env) (s : Store) (obj : ServiceAccount) :
    Option Err × Store :=
  let s1 := s.record (.updateServiceAccount obj)
  match env.fault s with
  | some e => (some e, s1)
  | none =>
    match s.findServiceAccount obj.Namespace obj.Name with
    | none => (some (.notFound "serviceaccounts" obj.Namespace obj.Name), s1)
    | some old =>
      (none, { s1 with serviceAccounts := updatedServiceAccounts s.serviceAccounts old obj })

/-- Client call `Get` of a secret. -/
def getSecret (env : Env) (s : Store) (ns name : String) : Except Err Secret × Store :=
  let s1 := s.record (.getSecret ns name)
  match env.fault s with
  | some e => (.error e, s1)
  | none =>
    match s.findSecret ns name with
    | some x => (.ok x, s1)
    | none => (.error (.notFound "secrets" ns name), s1)

/-- Client call `Create` of a secret.  The store names an object submitted without a
name by appending a suffix to its `GenerateName`, cut to `MaxGeneratedNameLength`
bytes; the object handed in is updated to the stored one.  A key already in use is
refused. -/
def createSecret (env : Env) (s : Store) (obj : Secret) : (Secret × Option Err) × Store :=
  let s1 := s.record (.createSecret obj)
  match env.fault s with
  | some e => ((obj, some e), s1)
  | none =>
    let named : Secret :=
      if obj.Name = "" then
        { obj with Name := cutGenerateName obj.GenerateName ++ env.nameSuffix s.log.length }
      else obj
    match s.findSecret named.Namespace named.Name with
    | some _ => ((obj, some (.alreadyExists "secrets" named.Namespace named.Name)), s1)
    | none => ((named, none), { s1 with secrets := s.secrets ++ [named] })

/-- Client call `Delete` of a secret: removes the object stored under its key.  When
another client has removed it first (`Env.gone`), it is no longer stored and the call
answers not-found. -/
def deleteSecret (env : Env) (s : Store) (obj : Secret) : Option Err × Store :=
  let s1 := s.record (.deleteSecret obj.Namespace obj.Name)
  match env.fault s with
  | some e => (some e, s1)
  | none =>
    if env.gone s.log.length then
      (some (.notFound "secrets" obj.Namespace obj.Name),
        { s1 with secrets := s.secrets.filter (fun x =>
          decide (¬ (x.Namespace = obj.Namespace ∧ x.Name = obj.Name))) })
    else
      match s.findSecret obj.Namespace obj.Name with
      | none => (some (.notFound "secrets" obj.Namespace obj.Name), s1)
      | some _ =>
        (none, { s1 with secrets := s.secrets.filter (fun x =>
          decide (¬ (x.Namespace = obj.Namespace ∧ x.Name = obj.Name))) })

/-- Client call `List` of pods with `client.InNamespace`. -/
def listPods (env : Env) (s : Store) (ns : String) : Except Err (List Pod) × Store :=
  let s1 := s.record (.listPods ns)
  match env.fault s with
  | some e => (.error e, s1)
  | none => (.ok (s.pods.filter (fun p => decide (p.Namespace = ns))), s1)

/-- Client call `Get` of a replica set. -/
def getReplicaSet (env : Env) (s : Store) (ns name : String) :
    Except Err ReplicaSet × Store :=
  let s1 := s.record (.getReplicaSet ns name)
  match env.fault s with
  | some e => (.error e, s1)
  | none =>
    match s.findReplicaSet ns name with
    | some x => (.ok x, s1)
    | none => (.error (.notFound "replicasets.apps" ns name), s1)

/-- Client call `Get` of a deployment. -/
def getDeployment (env : Env) (s : Store) (ns name : String) :
    Except Err Workload × Store :=
  let s1 := s.record (.getDeployment ns name)
  match env.fault s with
  | some e => (.error e, s1)
  | none =>
    match findWorkload s.deployments ns name with
    | some x => (.ok x, s1)
    | none => (.error (.notFound "deployments.apps" ns name), s1)

/-- Client call `Update` of a deployment. -/
def updateDeployment (env : Env) (s : Store) (obj : Workload) : Option Err × Store :=
  let s1 := s.record (.updateDeployment obj)
  match env.fault s with
  | some e => (some e, s1)
  | none =>
    match findWorkload s.deployments obj.Namespace obj.Name with
    | none => (some (.notFound "deployments.apps" obj.Namespace obj.Name), s1)
    | some _ => (none, { s1 with deployments := replaceWorkload s.deployments obj })

/-- Client call `Get` of a stateful set. -/
def getStatefulSet (env : Env) (s : Store) (ns name : String) :
    Except Err Workload × Store :=
  let s1 := s.record (.getStatefulSet ns name)
  match env.fault s with
  | some e => (.error e, s1)
  | none =>
    match findWorkload s.statefulSets ns name with
    | some x => (.ok x, s1)
    | none => (.error (.notFound "statefulsets.apps" ns name), s1)

/-- Client call `Update` of a stateful set. -/
def updateStatefulSet (env : Env) (s : Store) (obj : Workload) : Option Err × Store :=
  let s1 := s.record (.updateStatefulSet obj)
  match env.fault s with
  | some e => (some e, s1)
  | none =>
    match findWorkload s.statefulSets obj.Namespace obj.Name with
    | none => (some (.notFound "statefulsets.apps" obj.Namespace obj.Name), s1)
    | some _ => (none, { s1 with statefulSets := replaceWorkload s.statefulSets obj })

/-- Client call `Get` of a daemon set. -/
def getDaemonSet (env : Env) (s : Store) (ns name : String) :
    Except Err Workload × Store :=
  let s1 := s.record (.getDaemonSet ns name)
  match env.fault s with
  | some e => (.error e, s1)
  | none =>
    match findWorkload s.daemonSets ns name with
    | some x => (.ok x, s1)
    | none => (.error (.notFound "daemonsets.apps" ns name), s1)

/-- Client call `Update` of a daemon set. -/
def updateDaemonSet (env : Env) (s : Store) (obj : Workload) : Option Err × Store :=
  let s1 := s.record (.updateDaemonSet obj)
  match env.fault s with
  | some e => (some e, s1)
  | none =>
    match findWorkload s.daemonSets obj.Namespace obj.Name with
    | none => (some (.notFound "daemonsets.apps" obj.Namespace obj.Name), s1)
    | some _ => (none, { s1 with daemonSets := replaceWorkload s.daemonSets obj })

end Client

/-! ## Library functions used by the controller -/

/-- Method `(*metav1.Time).IsZero`: nil or the zero instant. -/
def IsZero : Option Nat → Bool
  | none => true
  | some t => t == 0

/-- Library function `controllerutil.ContainsFinalizer`. -/
def ContainsFinalizer (sa : ServiceAccount) (f : String) : Bool :=
  sa.Finalizers.any (fun x => decide (x = f))

/-- Library function `controllerutil.RemoveFinalizer`: drops every occurrence. -/
def RemoveFinalizer (sa : ServiceAccount) (f : String) : ServiceAccount :=
  { sa with Finalizers := sa.Finalizers.filter (fun x => decide (x ≠ f)) }

/-! ## The controller -/

/-- Constant `finalizer` (line 39). -/
def finalizer : String := "finalizers.kubesphere.io/serviceaccount"

/-- Constant `messageCreateSecretSuccessfully` (line 40). -/
def messageCreateSecretSuccessfully : String := "Create token secret successfully"

/-- Constant `reasonInvalidSecret` (line 41). -/
def reasonInvalidSecret : String := "InvalidSecret"

/-- Modelled from the spec: the event reason `kscontroller.Synced`, declared in package
`pkg/controller`; the specification names the event "Synced". -/
def Synced : String := "Synced"

/-- Constant `corev1.EventTypeNormal`. -/
def EventTypeNormal : String := "Normal"

/-- Constant `corev1.EventTypeWarning`. -/
def EventTypeWarning : String := "Warning"

/-- Source `Reconciler.checkSecretToken` (lines 184-192). -/
def checkSecretToken (env : Env) (secret : Secret) (subjectName : String) : Option Err :=
  if secret.Type_ ≠ env.SecretTypeServiceAccountToken then
    some (.unsupportedSecretType secret.Name secret.Type_)
  else if mapGet secret.Annotations env.ServiceAccountName ≠ subjectName then
    some (.incorrectSubjectName (mapGet secret.Annotations env.ServiceAccountName))
  else
    none

/-- Source `Reconciler.createTokenSecret` (lines 133-144): the secret handed to
`Create`, as it is after the call, and the error of the call. -/
def createTokenSecret (env : Env) (s : Store) (sa : ServiceAccount) :
    (Secret × Option Err) × Store :=
  let secret : Secret :=
    { Namespace := sa.Namespace
      Name := ""
      GenerateName := sa.Name ++ "-"
      Annotations := [(env.ServiceAccountName, sa.Name)]
      Type_ := env.SecretTypeServiceAccountToken }
  Client.createSecret env s secret

/-- Loop of `Reconciler.deleteSecretToken` (lines 147-162) over the references that
are left. -/
def deleteSecretTokenLoop (env : Env) (saName : String) :
    List ObjectReference → Store → Option Err × Store
  | [], s => (none, s)
  | secretName :: rest, s =>
    match Client.getSecret env s secretName.Namespace secretName.Name with
    | (.error err, s1) =>
      if err.IsNotFound then deleteSecretTokenLoop env saName rest s1
      else (some err, s1)
    | (.ok secret, s1) =>
      match checkSecretToken env secret saName with
      | none =>
        match Client.deleteSecret env s1 secret with
        | (some err, s2) => (some err, s2)
        | (none, s2) => deleteSecretTokenLoop env saName rest s2
      | some _ => deleteSecretTokenLoop env saName rest s1

/-- Source `Reconciler.deleteSecretToken` (lines 146-164). -/
def deleteSecretToken (env : Env) (s : Store) (sa : ServiceAccount) : Option Err × Store :=
  deleteSecretTokenLoop env sa.Name sa.Secrets s

/-- The warning event of `checkAllSecret` (lines 171 and 177). -/
def invalidSecretEvent (sa : ServiceAccount) (err : Err) : Event :=
  { Namespace := sa.Namespace
    Name := sa.Name
    Type_ := EventTypeWarning
    Reason := reasonInvalidSecret
    Message := err.Error }

/-- Loop of `Reconciler.checkAllSecret` (lines 167-179) over the references that are
left. -/
def checkAllSecretLoop (env : Env) (sa : ServiceAccount) :
    List ObjectReference → Store → Option Err × Store
  | [], s => (none, s)
  | secretRef :: rest, s =>
    match Client.getSecret env s sa.Namespace secretRef.Name with
    | (.error err, s1) =>
      if err.IsNotFound then
        checkAllSecretLoop env sa rest (s1.event (invalidSecretEvent sa err))
      else (some err, s1)
    | (.ok secret, s1) =>
      match checkSecretToken env secret sa.Name with
      | some err => checkAllSecretLoop env sa rest (s1.event (invalidSecretEvent sa err))
      | none => checkAllSecretLoop env sa rest s1

/-- Source `Reconciler.checkAllSecret` (lines 166-181). -/
def checkAllSecret (env : Env) (s : Store) (sa : ServiceAccount) : Option Err × Store :=
  checkAllSecretLoop env sa sa.Secrets s

/-- The statement `Annotations["kubesphere.io/restartedAt"] = metav1.Now().String()`
on the pod template of a workload (lines 249-252, 265-268, 280-283), `now` being the
text of the current time. -/
def stamp (now : String) (w : Workload) : Workload :=
  { w with TemplateAnnotations := mapSet w.TemplateAnnotations "kubesphere.io/restartedAt" now }

/-- Source `Reconciler.rolloutRestartPod` (lines 223-291). -/
def rolloutRestartPod (env : Env) (s : Store) (pod : Pod) : Option Err × Store :=
  match pod.OwnerReferences with
  | [] => (none, s)
  | owner :: _ =>
    if owner.Kind = "ReplicaSet" then
      match Client.getReplicaSet env s pod.Namespace owner.Name with
      | (.error err, s1) => (some err, s1)
      | (.ok rs, s1) =>
        match rs.OwnerReferences with
        | [] => (none, s1)
        | rsOwner :: _ =>
          if rsOwner.Kind = "Deployment" then
            match Client.getDeployment env s1 pod.Namespace rsOwner.Name with
            | (.error err, s2) => (some err, s2)
            | (.ok deploy, s2) => Client.updateDeployment env s2 (stamp (env.now s2.log.length) deploy)
          else (none, s1)
    else if owner.Kind = "StatefulSet" then
      match Client.getStatefulSet env s pod.Namespace owner.Name with
      | (.error err, s1) => (some err, s1)
      | (.ok sts, s1) => Client.updateStatefulSet env s1 (stamp (env.now s1.log.length) sts)
    else if owner.Kind = "DaemonSet" then
      match Client.getDaemonSet env s pod.Namespace owner.Name with
      | (.error err, s1) => (some err, s1)
      | (.ok ds, s1) => Client.updateDaemonSet env s1 (stamp (env.now s1.log.length) ds)
    else (none, s)

/-- Inner loop of `checkServiceAccountRefPod` (lines 209-215) over the volumes of one
pod.  The condition is evaluated left to right; both branches of the `if` go on with
the next volume, so the loop has no result besides a possible nil dereference of
`volume.Projected` or of `Sources[0].Secret`. -/
def volumeLoop (env : Env) (saSecrets : String) : List Volume → Outcome Unit
  | [] => .ret ()
  | volume :: rest =>
    if volume.Name = env.ServiceAccountVolumeName then
      match volume.Projected with
      | none => .nilPointerDereference
      | some projected =>
        match projected.Sources with
        | [] => volumeLoop env saSecrets rest
        | source :: _ =>
          match source.Secret with
          | none => .nilPointerDereference
          | some secret =>
            if saSecrets = secret.Name then volumeLoop env saSecrets rest
            else volumeLoop env saSecrets rest
    else volumeLoop env saSecrets rest

/-- Outer loop of `checkServiceAccountRefPod` (lines 205-219) over the pods that are
left. -/
def podLoop (env : Env) (saName saSecrets : String) :
    List Pod → Store → Outcome (Option Err) × Store
  | [], s => (.ret none, s)
  | pod :: rest, s =>
    if mapGet pod.Annotations env.AnnotationServiceAccountName ≠ saName then
      podLoop env saName saSecrets rest s
    else
      match volumeLoop env saSecrets pod.Volumes with
      | .nilPointerDereference => (.nilPointerDereference, s)
      | .ret _ =>
        match rolloutRestartPod env s pod with
        | (some _, s1) => (.ret none, s1)
        | (none, s1) => podLoop env saName saSecrets rest s1

/-- Source `Reconciler.checkServiceAccountRefPod` (lines 194-221). -/
def checkServiceAccountRefPod (env : Env) (s : Store) (sa : ServiceAccount) :
    Outcome (Option Err) × Store :=
  match sa.Secrets with
  | [] => (.ret none, s)
  | first :: _ =>
    match Client.listPods env s sa.Namespace with
    | (.error err, s1) => (.ret (some err), s1)
    | (.ok pods, s1) => podLoop env sa.Name first.Name pods s1

/-- The event recorded after a secret was created (line 99). -/
def syncedEvent (sa : ServiceAccount) : Event :=
  { Namespace := sa.Namespace
    Name := sa.Name
    Type_ := EventTypeNormal
    Reason := Synced
    Message := messageCreateSecretSuccessfully }

/-- Lines 83-118 of `Reconcile`: the finalizer branches.  The result is the error of
an early return, or the service account `sa` as the rest of `Reconcile` sees it. -/
def reconcileFinalizer (env : Env) (s : Store) (sa : ServiceAccount) :
    Except Err ServiceAccount × Store :=
  if IsZero sa.DeletionTimestamp then
    if !ContainsFinalizer sa finalizer then
      let deepCopy : ServiceAccount := { sa with Finalizers := sa.Finalizers ++ [finalizer] }
      match sa.Secrets with
      | [] =>
        match createTokenSecret env s sa with
        | ((_, some err), s1) => (.error err, s1)
        | ((secretCreated, none), s1) =>
          let deepCopy2 : ServiceAccount :=
            { deepCopy with Secrets := deepCopy.Secrets ++
                [{ Namespace := secretCreated.Namespace, Name := secretCreated.Name }] }
          let s2 := s1.event (syncedEvent deepCopy2)
          match Client.updateServiceAccount env s2 deepCopy2 with
          | (some err, s3) => (.error err, s3)
          | (none, s3) => (.ok sa, s3)
      | _ :: _ =>
        match Client.updateServiceAccount env s deepCopy with
        | (some err, s1) => (.error err, s1)
        | (none, s1) => (.ok sa, s1)
    else (.ok sa, s)
  else
    if ContainsFinalizer sa finalizer then
      match deleteSecretToken env s sa with
      | (some err, s1) => (.error err, s1)
      | (none, s1) =>
        let sa2 := RemoveFinalizer sa finalizer
        match Client.updateServiceAccount env s1 sa2 with
        | (some err, s2) => (.error err, s2)
        | (none, s2) => (.ok sa2, s2)
    else (.ok sa, s)

/-- Lines 120-130 of `Reconcile`: the validation pass, then drift detection. -/
def reconcileHealth (env : Env) (s : Store) (sa : ServiceAccount) :
    Outcome (Option Err) × Store :=
  match checkAllSecret env s sa with
  | (some err, s1) => (.ret (some err), s1)
  | (none, s1) => checkServiceAccountRefPod env s1 sa

/-- Source `Reconciler.Reconcile` (lines 76-131): the returned error and the store
after the call. -/
def Reconcile (env : Env) (s : Store) (req : NamespacedName) :
    Outcome (Option Err) × Store :=
  match Client.getServiceAccount env s req.Namespace req.Name with
  | (.error err, s0) => (.ret (IgnoreNotFound err), s0)
  | (.ok sa, s0) =>
    match reconcileFinalizer env s0 sa with
    | (.error err, s1) => (.ret (some err), s1)
    | (.ok sa1, s1) => reconcileHealth env s1 sa1

/-! ## Sample objects -/

/-- A sample environment without store failures. -/
def exEnv : Env :=
  { SecretTypeServiceAccountToken := "kubesphere.io/service-account-token"
    ServiceAccountName := "kubesphere.io/service-account.name"
    AnnotationServiceAccountName := "kubesphere.io/serviceaccount-name"
    ServiceAccountVolumeName := "kubesphere-service-account"
    faults := fun _ => none
    gone := fun _ => false
    nameSuffix := fun _ => "x7k2p"
    now := fun _ => "2024-05-01 10:00:00 +0000 UTC" }

/-- The store without objects. -/
def emptyStore : Store :=
  { serviceAccounts := [], secrets := [], pods := [], replicaSets := [], deployments := [],
    statefulSets := [], daemonSets := [], log := [], events := [] }

/-- Request key of the sample service account. -/
def reqSa1 : NamespacedName := { Namespace := "ns1", Name := "sa1" }

/-- Service account "ns1/sa1", finalized, with the credential "tok1". -/
def sa1 : ServiceAccount :=
  { Namespace := "ns1", Name := "sa1", Finalizers := [finalizer], DeletionTimestamp := none,
    Secrets := [{ Namespace := "ns1", Name := "tok1" }] }

/-- A token secret of "sa1". -/
def tok1 : Secret :=
  { Namespace := "ns1", Name := "tok1", GenerateName := "sa1-",
    Annotations := [("kubesphere.io/service-account.name", "sa1")],
    Type_ := "kubesphere.io/service-account-token" }

/-- Stateful set "ns1/web". -/
def web : Workload := { Namespace := "ns1", Name := "web", TemplateAnnotations := [] }

/-- A pod of "web" that uses "sa1" and mounts the secret named `mounted`. -/
def podOfWeb (mounted : String) : Pod :=
  { Namespace := "ns1", Name := "p1",
    Annotations := [("kubesphere.io/serviceaccount-name", "sa1")],
    Volumes := [{ Name := "kubesphere-service-account",
                  Projected := some { Sources := [{ Secret := some { Name := mounted } }] } }],
    OwnerReferences := [{ Kind := "StatefulSet", Name := "web" }] }

/-- A pod that uses "sa1", owned by replica set "rs1", mounting the secret "old". -/
def podOfRs1 : Pod :=
  { podOfWeb "old" with OwnerReferences := [{ Kind := "ReplicaSet", Name := "rs1" }] }

/-- Replica set "ns1/rs1", owned by deployment "d1". -/
def rs1 : ReplicaSet :=
  { Namespace := "ns1", Name := "rs1", OwnerReferences := [{ Kind := "Deployment", Name := "d1" }] }

/-- Deployment "ns1/d1". -/
def d1 : Workload :=
  { Namespace := "ns1", Name := "d1", TemplateAnnotations := [("team", "blue")] }

/-- A store holding "sa1", its secret, the pod of "rs1", "rs1" and "d1". -/
def rolloutStore : Store :=
  { emptyStore with
    serviceAccounts := [sa1], secrets := [tok1], pods := [podOfRs1],
    replicaSets := [rs1], deployments := [d1] }

/-- Service account "ns1/sa1" as first submitted: no finalizer, no credential. -/
def sa0 : ServiceAccount :=
  { Namespace := "ns1", Name := "sa1", Finalizers := [], DeletionTimestamp := none,
    Secrets := [] }

/-- A store holding only the new service account. -/
def freshStore : Store :=
  { emptyStore with serviceAccounts := [sa0] }

/-- A secret of another type, named "other". -/
def otherSecret : Secret :=
  { Namespace := "ns1", Name := "other", GenerateName := "",
    Annotations := [("kubesphere.io/service-account.name", "sa1")], Type_ := "Opaque" }

/-- Service account "ns1/sa1" being deleted, referring to "tok1", "other" and "gone". -/
def saTerminating : ServiceAccount :=
  { Namespace := "ns1", Name := "sa1", Finalizers := [finalizer], DeletionTimestamp := some 1714557600,
    Secrets := [{ Namespace := "ns1", Name := "tok1" }, { Namespace := "ns1", Name := "other" },
      { Namespace := "ns1", Name := "gone" }] }

/-- A store holding the terminating service account, "tok1" and "other". -/
def terminatingStore : Store :=
  { emptyStore with serviceAccounts := [saTerminating], secrets := [tok1, otherSecret] }

/-- An environment in which the store call with index 3 fails. -/
def faultyEnv : Env :=
  { exEnv with faults := fun n => if n = 3 then some "etcdserver: request timed out" else none }

/-- A store without drift: the pod of "web" mounts "tok1", the current credential of
"sa1". -/
def driftFreeStore : Store :=
  { emptyStore with
    serviceAccounts := [sa1], secrets := [tok1], pods := [podOfWeb "tok1"],
    statefulSets := [web] }

/-- A store with drift: the pod of "web" mounts the secret "old". -/
def driftStore : Store :=
  { emptyStore with
    serviceAccounts := [sa1], secrets := [tok1], pods := [podOfWeb "old"],
    statefulSets := [web] }

/-- The stateful set "web" after a restart was requested. -/
def webRestarted : Workload :=
  { web with TemplateAnnotations :=
      [("kubesphere.io/restartedAt", "2024-05-01 10:00:00 +0000 UTC")] }

/-- A pod that uses "sa1" and whose volume named as the service-account volume is not
a projected volume. -/
def podPlainVolume : Pod :=
  { podOfWeb "tok1" with
    Volumes := [{ Name := "kubesphere-service-account", Projected := none }] }

/-- A pod that uses "sa1" and whose service-account volume has a first source that is
not a secret source. -/
def podOtherSource : Pod :=
  { podOfWeb "tok1" with
    Volumes := [{ Name := "kubesphere-service-account",
                  Projected := some { Sources := [{ Secret := none }] } }] }

/-- Service account "ns1/aaa...a" with a name of 58 characters, as first submitted. -/
def saLong : ServiceAccount :=
  { sa0 with Name := "aaaaaaaaaaaaaaaaaaaaaaaaaaaaaaaaaaaaaaaaaaaaaaaaaaaaaaaaaa" }

/-- Request key of the service account with the long name. -/
def reqLong : NamespacedName := { Namespace := "ns1", Name := saLong.Name }

/-- A store holding only the service account with the long name. -/
def longStore : Store :=
  { emptyStore with serviceAccounts := [saLong] }

/-- The secret that `createTokenSecret` builds for a service account, under a name. -/
def tokenSecret (env : Env) (sa : ServiceAccount) (name : String) : Secret :=
  { Namespace := sa.Namespace
    Name := name
    GenerateName := sa.Name ++ "-"
    Annotations := [(env.ServiceAccountName, sa.Name)]
    Type_ := env.SecretTypeServiceAccountToken }

/-- The name the store gives to a secret created for `sa` as store call `n`. -/
def generatedName (env : Env) (sa : ServiceAccount) (n : Nat) : String :=
  cutGenerateName (sa.Name ++ "-") ++ env.nameSuffix n

/-- The calls made from the state `s` on, in the state `s2`. -/
def newCalls (s s2 : Store) : List Call :=
  s2.log.drop s.log.length

/-- The store `s2` has the log of `s` followed by calls that all satisfy `P`. -/
def Appends (P : Call → Bool) (s s2 : Store) : Prop :=
  ∃ d, s2.log = s.log ++ d ∧ ∀ c ∈ d, P c = true

/-- The store `s2` comes from `s` without a write of a service account or a secret:
both collections are the same and the log grew by other calls only. -/
def Quiet (s s2 : Store) : Prop :=
  s2.serviceAccounts = s.serviceAccounts ∧ s2.secrets = s.secrets ∧
    Appends (fun c => !c.isLifecycleWrite) s s2

/-- Calls made by the cleanup of secrets. -/
def Call.isCleanup : Call → Bool
  | .getSecret _ _ => true
  | .deleteSecret _ _ => true
  | _ => false

/-! ## Properties -/

/-- Reading a map after `mapSet`. -/
theorem lookup_mapSet (m : Annotations) (k v k2 : String) :
    (mapSet m k v).lookup k2 = if k2 = k then some v else m.lookup k2 := by
  induction m with
  | nil =>
    by_cases h : k2 = k
    · simp [mapSet, List.lookup, h]
    · have hne : (k2 == k) = false := by simpa using h
      simp [mapSet, List.lookup, h, hne]
  | cons e m ih =>
    obtain ⟨a, b⟩ := e
    unfold mapSet at ih ⊢
    by_cases ha : a = k
    · by_cases h : k2 = k
      · simpa [List.filter_cons, ha, h] using ih
      · have hne : (k2 == k) = false := by simpa using h
        simpa [List.filter_cons, ha, h, List.lookup_cons, hne] using ih
    · by_cases h2 : k2 = a
      · have hk : ¬ a = k := ha
        simp [List.filter_cons, ha, h2, List.lookup_cons]
      · have hne : (k2 == a) = false := by simpa using h2
        simpa [List.filter_cons, ha, List.lookup_cons, hne] using ih

/-- Without injected failures no store call fails by injection. -/
theorem fault_eq_none (env : Env) (hf : ∀ n, env.faults n = none) (s : Store) :
    env.fault s = none := by
  simp [Env.fault, hf]

/-- A workload found under a key has that key. -/
theorem findWorkload_key (ws : List Workload) (ns name : String) (w : Workload)
    (h : findWorkload ws ns name = some w) : w.Namespace = ns ∧ w.Name = name := by
  unfold findWorkload at h
  have := List.find?_some h
  simpa using this

theorem Appends.nil (P : Call → Bool) (s : Store) : Appends P s s :=
  ⟨[], by simp, by simp⟩

theorem Appends.append {P : Call → Bool} {s1 s2 s3 : Store}
    (h1 : Appends P s1 s2) (h2 : Appends P s2 s3) : Appends P s1 s3 := by
  obtain ⟨d1, e1, p1⟩ := h1
  obtain ⟨d2, e2, p2⟩ := h2
  refine ⟨d1 ++ d2, by simp [e2, e1], ?_⟩
  intro c hc
  rcases List.mem_append.1 hc with h | h
  · exact p1 c h
  · exact p2 c h

theorem Appends.single (P : Call → Bool) (s : Store) (c : Call) (h : P c = true) :
    Appends P s (s.record c) :=
  ⟨[c], rfl, by simpa using h⟩

theorem Appends.of_log_eq {P : Call → Bool} {s1 s2 s3 : Store}
    (h : Appends P s1 s2) (e : s3.log = s2.log) : Appends P s1 s3 := by
  obtain ⟨d, e1, p1⟩ := h
  exact ⟨d, by rw [e, e1], p1⟩

theorem Quiet.refl (s : Store) : Quiet s s :=
  ⟨rfl, rfl, Appends.nil _ s⟩

theorem Quiet.trans {s1 s2 s3 : Store} (h1 : Quiet s1 s2) (h2 : Quiet s2 s3) :
    Quiet s1 s3 :=
  ⟨h2.1.trans h1.1, h2.2.1.trans h1.2.1, h1.2.2.append h2.2.2⟩

theorem Quiet.record (s : Store) (c : Call) (h : c.isLifecycleWrite = false) :
    Quiet s (s.record c) :=
  ⟨rfl, rfl, Appends.single _ s c (by simp [h])⟩

theorem Quiet.event (s : Store) (e : Event) : Quiet s (s.event e) :=
  ⟨rfl, rfl, (Appends.nil _ s).of_log_eq rfl⟩

theorem Quiet.getSecret (env : Env) (s : Store) (ns name : String) :
    Quiet s (Client.getSecret env s ns name).2 := by
  have h := Quiet.record s (.getSecret ns name) rfl
  unfold Client.getSecret
  cases env.fault s <;> simp only <;> [skip; exact h]
  cases s.findSecret ns name <;> exact h

theorem Quiet.of_fields {s s2 : Store} (c : Call) (hc : c.isLifecycleWrite = false)
    (h1 : s2.serviceAccounts = s.serviceAccounts) (h2 : s2.secrets = s.secrets)
    (h3 : s2.log = s.log ++ [c]) : Quiet s s2 :=
  ⟨h1, h2, [c], h3, by simp [hc]⟩

theorem Quiet.listPods (env : Env) (s : Store) (ns : String) :
    Quiet s (Client.listPods env s ns).2 := by
  unfold Client.listPods
  cases env.fault s <;> exact Quiet.of_fields (.listPods ns) rfl rfl rfl rfl

theorem Quiet.getReplicaSet (env : Env) (s : Store) (ns name : String) :
    Quiet s (Client.getReplicaSet env s ns name).2 := by
  have h := Quiet.record s (.getReplicaSet ns name) rfl
  unfold Client.getReplicaSet
  cases env.fault s <;> simp only <;> [skip; exact h]
  cases s.findReplicaSet ns name <;> exact h

theorem Quiet.getDeployment (env : Env) (s : Store) (ns name : String) :
    Quiet s (Client.getDeployment env s ns name).2 := by
  have h := Quiet.record s (.getDeployment ns name) rfl
  unfold Client.getDeployment
  cases env.fault s <;> simp only <;> [skip; exact h]
  cases findWorkload s.deployments ns name <;> exact h

theorem Quiet.getStatefulSet (env : Env) (s : Store) (ns name : String) :
    Quiet s (Client.getStatefulSet env s ns name).2 := by
  have h := Quiet.record s (.getStatefulSet ns name) rfl
  unfold Client.getStatefulSet
  cases env.fault s <;> simp only <;> [skip; exact h]
  cases findWorkload s.statefulSets ns name <;> exact h

theorem Quiet.getDaemonSet (env : Env) (s : Store) (ns name : String) :
    Quiet s (Client.getDaemonSet env s ns name).2 := by
  have h := Quiet.record s (.getDaemonSet ns name) rfl
  unfold Client.getDaemonSet
  cases env.fault s <;> simp only <;> [skip; exact h]
  cases findWorkload s.daemonSets ns name <;> exact h

theorem Quiet.updateDeployment (env : Env) (s : Store) (obj : Workload) :
    Quiet s (Client.updateDeployment env s obj).2 := by
  unfold Client.updateDeployment
  cases env.fault s <;> simp only
  · cases findWorkload s.deployments obj.Namespace obj.Name <;>
      exact Quiet.of_fields (.updateDeployment obj) rfl rfl rfl rfl
  · exact Quiet.of_fields (.updateDeployment obj) rfl rfl rfl rfl

theorem Quiet.updateStatefulSet (env : Env) (s : Store) (obj : Workload) :
    Quiet s (Client.updateStatefulSet env s obj).2 := by
  unfold Client.updateStatefulSet
  cases env.fault s <;> simp only
  · cases findWorkload s.statefulSets obj.Namespace obj.Name <;>
      exact Quiet.of_fields (.updateStatefulSet obj) rfl rfl rfl rfl
  · exact Quiet.of_fields (.updateStatefulSet obj) rfl rfl rfl rfl

theorem Quiet.updateDaemonSet (env : Env) (s : Store) (obj : Workload) :
    Quiet s (Client.updateDaemonSet env s obj).2 := by
  unfold Client.updateDaemonSet
  cases env.fault s <;> simp only
  · cases findWorkload s.daemonSets obj.Namespace obj.Name <;>
      exact Quiet.of_fields (.updateDaemonSet obj) rfl rfl rfl rfl
  · exact Quiet.of_fields (.updateDaemonSet obj) rfl rfl rfl rfl

/-- A rollout writes neither a service account nor a secret. -/
theorem Quiet.rolloutRestartPod (env : Env) (s : Store) (pod : Pod) :
    Quiet s (rolloutRestartPod env s pod).2 := by
  unfold KsServiceAccount.rolloutRestartPod
  split
  · exact Quiet.refl s
  · rename_i owner owners _
    split_ifs
    · have h1 := Quiet.getReplicaSet env s pod.Namespace owner.Name
      split
      · rename_i err s1 heq
        rw [heq] at h1
        exact h1
      · rename_i rs s1 heq
        rw [heq] at h1
        split
        · exact h1
        · rename_i rsOwner rsOwners _
          split_ifs
          · have h2 := Quiet.getDeployment env s1 pod.Namespace rsOwner.Name
            split
            · rename_i err s2 heq2
              rw [heq2] at h2
              exact h1.trans h2
            · rename_i deploy s2 heq2
              rw [heq2] at h2
              exact (h1.trans h2).trans (Quiet.updateDeployment env s2 _)
          · exact h1
    · have h1 := Quiet.getStatefulSet env s pod.Namespace owner.Name
      split
      · rename_i err s1 heq
        rw [heq] at h1
        exact h1
      · rename_i sts s1 heq
        rw [heq] at h1
        exact h1.trans (Quiet.updateStatefulSet env s1 _)
    · have h1 := Quiet.getDaemonSet env s pod.Namespace owner.Name
      split
      · rename_i err s1 heq
        rw [heq] at h1
        exact h1
      · rename_i ds s1 heq
        rw [heq] at h1
        exact h1.trans (Quiet.updateDaemonSet env s1 _)
    · exact Quiet.refl s

/-- The loop over the pods writes neither a service account nor a secret. -/
theorem Quiet.podLoop (env : Env) (saName saSecrets : String) (pods : List Pod) :
    ∀ s : Store, Quiet s (podLoop env saName saSecrets pods s).2 := by
  induction pods with
  | nil => intro s; exact Quiet.refl s
  | cons pod rest ih =>
    intro s
    unfold KsServiceAccount.podLoop
    split_ifs
    · exact ih s
    · split
      · exact Quiet.refl s
      · have h1 := Quiet.rolloutRestartPod env s pod
        split
        · rename_i e s1 heq
          rw [heq] at h1
          exact h1
        · rename_i s1 heq
          rw [heq] at h1
          exact h1.trans (ih s1)

/-- Drift detection writes neither a service account nor a secret. -/
theorem Quiet.checkServiceAccountRefPod (env : Env) (s : Store) (sa : ServiceAccount) :
    Quiet s (checkServiceAccountRefPod env s sa).2 := by
  unfold KsServiceAccount.checkServiceAccountRefPod
  split
  · exact Quiet.refl s
  · have h1 := Quiet.listPods env s sa.Namespace
    split
    · rename_i err s1 heq
      rw [heq] at h1
      exact h1
    · rename_i pods s1 heq
      rw [heq] at h1
      exact h1.trans (Quiet.podLoop env _ _ pods s1)

/-- The validation pass writes neither a service account nor a secret. -/
theorem Quiet.checkAllSecretLoop (env : Env) (sa : ServiceAccount)
    (refs : List ObjectReference) :
    ∀ s : Store, Quiet s (checkAllSecretLoop env sa refs s).2 := by
  induction refs with
  | nil => intro s; exact Quiet.refl s
  | cons ref rest ih =>
    intro s
    unfold KsServiceAccount.checkAllSecretLoop
    have h1 := Quiet.getSecret env s sa.Namespace ref.Name
    split
    · rename_i err s1 heq
      rw [heq] at h1
      split_ifs
      · exact (h1.trans (Quiet.event s1 _)).trans (ih _)
      · exact h1
    · rename_i secret s1 heq
      rw [heq] at h1
      split
      · exact (h1.trans (Quiet.event s1 _)).trans (ih _)
      · exact h1.trans (ih _)

/-- The loop over the pods never returns an error. -/
theorem podLoop_no_error (env : Env) (saName saSecrets : String) (pods : List Pod) :
    ∀ (s : Store) (e : Err), (podLoop env saName saSecrets pods s).1 ≠ .ret (some e) := by
  induction pods with
  | nil => intro s e; simp [podLoop]
  | cons pod rest ih =>
    intro s e
    unfold podLoop
    split_ifs
    · exact ih s e
    · split
      · simp
      · split
        · simp
        · exact ih _ e

/-- Without store failures drift detection returns no error. -/
theorem checkServiceAccountRefPod_no_error (env : Env) (hf : ∀ n, env.faults n = none)
    (s : Store) (sa : ServiceAccount) (e : Err) :
    (checkServiceAccountRefPod env s sa).1 ≠ .ret (some e) := by
  unfold checkServiceAccountRefPod
  split
  · simp
  · simp only [Client.listPods, fault_eq_none env hf]
    exact podLoop_no_error env _ _ _ _ e

/-- Without store failures the validation pass returns no error. -/
theorem checkAllSecretLoop_no_error (env : Env) (hf : ∀ n, env.faults n = none)
    (sa : ServiceAccount) (refs : List ObjectReference) :
    ∀ s : Store, (checkAllSecretLoop env sa refs s).1 = none := by
  induction refs with
  | nil => intro s; rfl
  | cons ref rest ih =>
    intro s
    unfold checkAllSecretLoop
    simp only [Client.getSecret, fault_eq_none env hf]
    cases s.findSecret sa.Namespace ref.Name with
    | none => simp [Err.IsNotFound, ih]
    | some secret =>
      simp only
      split
      · exact ih _
      · exact ih _

/-- A service account found under a key has that key. -/
theorem findServiceAccount_key (s : Store) (ns name : String) (sa : ServiceAccount)
    (h : s.findServiceAccount ns name = some sa) : sa.Namespace = ns ∧ sa.Name = name := by
  unfold Store.findServiceAccount at h
  have := List.find?_some h
  simpa using this

/-- Looking a key up after the service account of that key was replaced. -/
theorem find_replace_serviceAccount (xs : List ServiceAccount) (old obj : ServiceAccount)
    (h : xs.find? (fun x => decide (x.Namespace = obj.Namespace ∧ x.Name = obj.Name)) =
      some old) :
    (replaceServiceAccount xs obj).find?
        (fun x => decide (x.Namespace = obj.Namespace ∧ x.Name = obj.Name)) = some obj := by
  unfold replaceServiceAccount
  induction xs with
  | nil => simp at h
  | cons x xs ih =>
    by_cases hx : x.Namespace = obj.Namespace ∧ x.Name = obj.Name
    · simp [hx]
    · rw [List.find?_cons_of_neg _ (by simpa using hx)] at h
      rw [List.map_cons, if_neg hx, List.find?_cons_of_neg _ (by simpa using hx)]
      exact ih h

/-- Reading a stored service account without store failure. -/
theorem getServiceAccount_found (env : Env) (s : Store) (ns name : String)
    (sa : ServiceAccount) (h0 : env.faults s.log.length = none)
    (h : s.findServiceAccount ns name = some sa) :
    Client.getServiceAccount env s ns name = (.ok sa, s.record (.getServiceAccount ns name)) := by
  simp [Client.getServiceAccount, Env.fault, h0, h]

/-- Updating a stored service account without store failure. -/
theorem updateServiceAccount_stored (env : Env) (s : Store) (obj old : ServiceAccount)
    (h0 : env.faults s.log.length = none)
    (h : s.findServiceAccount obj.Namespace obj.Name = some old) :
    Client.updateServiceAccount env s obj =
      (none, { s.record (.updateServiceAccount obj) with
        serviceAccounts := updatedServiceAccounts s.serviceAccounts old obj }) := by
  simp [Client.updateServiceAccount, Env.fault, h0, h]

/-- Updating a stored service account that keeps a finalizer, without store failure:
the stored object is replaced. -/
theorem updateServiceAccount_found (env : Env) (s : Store) (obj old : ServiceAccount)
    (h0 : env.faults s.log.length = none)
    (h : s.findServiceAccount obj.Namespace obj.Name = some old)
    (hkeep : obj.Finalizers ≠ []) :
    Client.updateServiceAccount env s obj =
      (none, { s.record (.updateServiceAccount obj) with
        serviceAccounts := replaceServiceAccount s.serviceAccounts obj }) := by
  rw [updateServiceAccount_stored env s obj old h0 h]
  simp [updatedServiceAccounts, hkeep]

/-- The finalizer test of `controllerutil.ContainsFinalizer` is list membership. -/
theorem containsFinalizer_iff (sa : ServiceAccount) (f : String) :
    ContainsFinalizer sa f = true ↔ f ∈ sa.Finalizers := by
  simp [ContainsFinalizer]

/-- The calls after `s` when the log went through `s.log ++ pre` and then grew by
calls outside `Q`. -/
theorem filter_newCalls (P Q : Call → Bool) (hPQ : ∀ c, P c = true → Q c = false)
    (s s1 s2 : Store) (pre : List Call) (hs1 : s1.log = s.log ++ pre)
    (h : Appends P s1 s2) : (newCalls s s2).filter Q = pre.filter Q := by
  obtain ⟨d, e, hd⟩ := h
  have hnil : d.filter Q = [] := by
    rw [List.filter_eq_nil_iff]
    intro c hc
    simp [hPQ c (hd c hc)]
  unfold newCalls
  rw [e, hs1, List.append_assoc, List.drop_left, List.filter_append, hnil, List.append_nil]

/-- Creating the token secret without store failure, under a name not yet in use. -/
theorem createTokenSecret_fresh (env : Env) (s : Store) (sa : ServiceAccount)
    (h0 : env.faults s.log.length = none)
    (hfresh : s.findSecret sa.Namespace (generatedName env sa s.log.length) = none) :
    createTokenSecret env s sa =
      ((tokenSecret env sa (generatedName env sa s.log.length), none),
        { s.record (.createSecret (tokenSecret env sa "")) with
          secrets := s.secrets ++ [tokenSecret env sa (generatedName env sa s.log.length)] }) := by
  unfold generatedName at hfresh
  simp only [createTokenSecret, Client.createSecret, Env.fault, h0, Option.map_none,
    if_true, hfresh]
  rfl

/-- The emptiness of the finalizer test. -/
theorem containsFinalizer_eq_false (sa : ServiceAccount) (f : String)
    (h : f ∉ sa.Finalizers) : ContainsFinalizer sa f = false := by
  cases hc : ContainsFinalizer sa f with
  | false => rfl
  | true => exact absurd ((containsFinalizer_iff sa f).1 hc) h

/-- First reconcile of a service account without finalizer and without credential:
the whole result. -/
theorem Reconcile_provision (env : Env) (s : Store) (req : NamespacedName)
    (sa : ServiceAccount) (hf : ∀ n, env.faults n = none)
    (hget : s.findServiceAccount req.Namespace req.Name = some sa)
    (hz : IsZero sa.DeletionTimestamp = true) (hnf : finalizer ∉ sa.Finalizers)
    (hempty : sa.Secrets = [])
    (hfresh : s.findSecret sa.Namespace (generatedName env sa (s.log.length + 1)) = none) :
    Reconcile env s req = (.ret none, { s with
      serviceAccounts := replaceServiceAccount s.serviceAccounts
        { sa with
          Finalizers := sa.Finalizers ++ [finalizer]
          Secrets := [{ Namespace := sa.Namespace,
                        Name := generatedName env sa (s.log.length + 1) }] }
      secrets := s.secrets ++ [tokenSecret env sa (generatedName env sa (s.log.length + 1))]
      log := s.log ++ [.getServiceAccount req.Namespace req.Name,
        .createSecret (tokenSecret env sa ""),
        .updateServiceAccount { sa with
          Finalizers := sa.Finalizers ++ [finalizer]
          Secrets := [{ Namespace := sa.Namespace,
                        Name := generatedName env sa (s.log.length + 1) }] }]
      events := s.events ++ [syncedEvent { sa with
          Finalizers := sa.Finalizers ++ [finalizer]
          Secrets := [{ Namespace := sa.Namespace,
                        Name := generatedName env sa (s.log.length + 1) }] }] }) := by
  have hkey := findServiceAccount_key s _ _ sa hget
  have hc := containsFinalizer_eq_false sa finalizer hnf
  have hget2 : s.findServiceAccount sa.Namespace sa.Name = some sa := by
    rw [hkey.1, hkey.2]; exact hget
  have hlen : (s.record (.getServiceAccount req.Namespace req.Name)).log.length =
      s.log.length + 1 := by simp [Store.record]
  unfold Reconcile
  rw [getServiceAccount_found env s _ _ sa (hf _) hget]
  simp only [reconcileFinalizer, hz, hc, hempty]
  rw [createTokenSecret_fresh env _ sa (hf _) (by rw [hlen]; exact hfresh)]
  simp only [Bool.not_false, if_true, List.nil_append]
  rw [updateServiceAccount_found env _ _ sa (hf _)]
  · simp only [reconcileHealth, checkAllSecret, hempty, checkAllSecretLoop,
      checkServiceAccountRefPod]
    simp [Store.record, Store.event, tokenSecret]
  · exact hget2
  · simp

/-- The health passes write neither a service account nor a secret. -/
theorem Quiet.reconcileHealth (env : Env) (s : Store) (sa : ServiceAccount) :
    Quiet s (reconcileHealth env s sa).2 := by
  unfold KsServiceAccount.reconcileHealth
  have h1 : Quiet s (checkAllSecret env s sa).2 := Quiet.checkAllSecretLoop env sa _ s
  split
  · rename_i err s1 heq
    rw [heq] at h1
    exact h1
  · rename_i s1 heq
    rw [heq] at h1
    exact h1.trans (Quiet.checkServiceAccountRefPod env s1 sa)

/-- Without store failures the health passes return no error. -/
theorem reconcileHealth_no_error (env : Env) (hf : ∀ n, env.faults n = none)
    (s : Store) (sa : ServiceAccount) (e : Err) :
    (reconcileHealth env s sa).1 ≠ .ret (some e) := by
  unfold reconcileHealth
  have h1 : (checkAllSecret env s sa).1 = none := checkAllSecretLoop_no_error env hf sa _ s
  split
  · rename_i err s1 heq
    rw [heq] at h1
    simp at h1
  · exact checkServiceAccountRefPod_no_error env hf _ sa e

/-- The finalizer branch of a service account without finalizer that has credentials:
one update, of the copy carrying the finalizer. -/
theorem reconcileFinalizer_attach (env : Env) (s : Store) (sa : ServiceAccount)
    (hf : ∀ n, env.faults n = none)
    (hget : s.findServiceAccount sa.Namespace sa.Name = some sa)
    (hz : IsZero sa.DeletionTimestamp = true) (hnf : finalizer ∉ sa.Finalizers)
    (hne : sa.Secrets ≠ []) :
    reconcileFinalizer env s sa = (.ok sa,
      { s.record (.updateServiceAccount { sa with Finalizers := sa.Finalizers ++ [finalizer] }) with
        serviceAccounts := replaceServiceAccount s.serviceAccounts
          { sa with Finalizers := sa.Finalizers ++ [finalizer] } }) := by
  have hc := containsFinalizer_eq_false sa finalizer hnf
  unfold reconcileFinalizer
  simp only [hz, hc, Bool.not_false, if_true]
  split
  · rename_i h
    exact absurd h hne
  · rw [updateServiceAccount_found env _ _ sa (hf _)]
    · exact hget
    · simp

/-- Reconcile of a service account without finalizer that has credentials: the store
after the update of the copy, then the health passes on the loaded object. -/
theorem Reconcile_attach_eq (env : Env) (s : Store) (req : NamespacedName)
    (sa : ServiceAccount) (hf : ∀ n, env.faults n = none)
    (hget : s.findServiceAccount req.Namespace req.Name = some sa)
    (hz : IsZero sa.DeletionTimestamp = true) (hnf : finalizer ∉ sa.Finalizers)
    (hne : sa.Secrets ≠ []) :
    Reconcile env s req = reconcileHealth env
      { s with
        serviceAccounts := replaceServiceAccount s.serviceAccounts
          { sa with Finalizers := sa.Finalizers ++ [finalizer] }
        log := s.log ++ [.getServiceAccount req.Namespace req.Name,
          .updateServiceAccount { sa with Finalizers := sa.Finalizers ++ [finalizer] }] }
      sa := by
  have hkey := findServiceAccount_key s _ _ sa hget
  have hget2 : (s.record (.getServiceAccount req.Namespace req.Name)).findServiceAccount
      sa.Namespace sa.Name = some sa := by
    rw [hkey.1, hkey.2]; exact hget
  unfold Reconcile
  rw [getServiceAccount_found env s _ _ sa (hf _) hget]
  simp only
  rw [reconcileFinalizer_attach env _ sa hf hget2 hz hnf hne]
  simp [Store.record]

/-- The service account stored under its key after it was replaced and the store went
through calls that write no service account. -/
theorem find_after_replace (s s1 s2 : Store) (ns name : String) (sa obj : ServiceAccount)
    (hget : s.findServiceAccount ns name = some sa)
    (hobj : obj.Namespace = sa.Namespace ∧ obj.Name = sa.Name)
    (hs1 : s1.serviceAccounts = replaceServiceAccount s.serviceAccounts obj)
    (hq : Quiet s1 s2) : s2.findServiceAccount ns name = some obj := by
  have hkey := findServiceAccount_key s _ _ sa hget
  have hk1 : obj.Namespace = ns := hobj.1.trans hkey.1
  have hk2 : obj.Name = name := hobj.2.trans hkey.2
  unfold Store.findServiceAccount at hget ⊢
  rw [hq.1, hs1]
  subst hk1 hk2
  exact find_replace_serviceAccount _ sa obj hget

/-- The cleanup loop over a list of references split in two. -/
theorem deleteSecretTokenLoop_append (env : Env) (saName : String)
    (pre rest : List ObjectReference) :
    ∀ s : Store, deleteSecretTokenLoop env saName (pre ++ rest) s =
      match deleteSecretTokenLoop env saName pre s with
      | (some e, s1) => (some e, s1)
      | (none, s1) => deleteSecretTokenLoop env saName rest s1 := by
  induction pre with
  | nil => intro s; simp [deleteSecretTokenLoop]
  | cons ref pre ih =>
    intro s
    rw [List.cons_append]
    simp only [deleteSecretTokenLoop]
    rcases Client.getSecret env s ref.Namespace ref.Name with ⟨err | secret, s1⟩
    · simp only
      split_ifs
      · exact ih _
      · rfl
    · simp only
      cases checkSecretToken env secret saName with
      | none =>
        simp only
        rcases Client.deleteSecret env s1 secret with ⟨_ | e, s2⟩
        · exact ih _
        · rfl
      | some e => exact ih _

/-- The cleanup loop, with or without store failures, leaves the service accounts
alone and only reads and deletes secrets. -/
theorem deleteSecretTokenLoop_frame (env : Env) (saName : String)
    (refs : List ObjectReference) :
    ∀ s : Store, (deleteSecretTokenLoop env saName refs s).2.serviceAccounts =
        s.serviceAccounts ∧
      Appends Call.isCleanup s (deleteSecretTokenLoop env saName refs s).2 := by
  have hget : ∀ (s : Store) ns n, (Client.getSecret env s ns n).2 = s.record (.getSecret ns n) := by
    intro s ns n
    unfold Client.getSecret
    cases env.fault s <;> simp only
    cases s.findSecret ns n <;> rfl
  have hdel : ∀ (s : Store) sec, (Client.deleteSecret env s sec).2.serviceAccounts =
      s.serviceAccounts ∧ Appends Call.isCleanup s (Client.deleteSecret env s sec).2 := by
    intro s sec
    unfold Client.deleteSecret
    cases env.fault s <;> simp only
    · split_ifs
      · exact ⟨rfl, [.deleteSecret sec.Namespace sec.Name], rfl, by simp [Call.isCleanup]⟩
      · cases s.findSecret sec.Namespace sec.Name <;>
          exact ⟨rfl, [.deleteSecret sec.Namespace sec.Name], rfl, by simp [Call.isCleanup]⟩
    · exact ⟨rfl, [.deleteSecret sec.Namespace sec.Name], rfl, by simp [Call.isCleanup]⟩
  induction refs with
  | nil => intro s; exact ⟨rfl, Appends.nil _ s⟩
  | cons ref rest ih =>
    intro s
    have h1 := hget s ref.Namespace ref.Name
    have hr : Appends Call.isCleanup s (s.record (.getSecret ref.Namespace ref.Name)) :=
      Appends.single _ s _ rfl
    unfold deleteSecretTokenLoop
    split
    · rename_i err s1 heq
      rw [heq] at h1
      simp only at h1
      subst h1
      split_ifs
      · exact ⟨(ih _).1, hr.append (ih _).2⟩
      · exact ⟨rfl, hr⟩
    · rename_i secret s1 heq
      rw [heq] at h1
      simp only at h1
      subst h1
      split
      · have h2 := hdel (s.record (.getSecret ref.Namespace ref.Name)) secret
        split
        · rename_i err s2 heq2
          rw [heq2] at h2
          exact ⟨h2.1, hr.append h2.2⟩
        · rename_i s2 heq2
          rw [heq2] at h2
          exact ⟨(ih _).1.trans h2.1, (hr.append h2.2).append (ih _).2⟩
      · exact ⟨(ih _).1, hr.append (ih _).2⟩

/-- Lookup of a service account depends on the stored service accounts only. -/
theorem findServiceAccount_congr (s s2 : Store) (h : s2.serviceAccounts = s.serviceAccounts)
    (ns n : String) : s2.findServiceAccount ns n = s.findServiceAccount ns n := by
  unfold Store.findServiceAccount
  rw [h]

/-- Reconcile of a service account without deletion timestamp that carries the
finalizer token writes neither a service account nor a secret, whatever the pods are. -/
theorem Reconcile_finalized_quiet (env : Env) (s : Store) (req : NamespacedName)
    (sa : ServiceAccount) (h0 : env.faults s.log.length = none)
    (hget : s.findServiceAccount req.Namespace req.Name = some sa)
    (hz : IsZero sa.DeletionTimestamp = true) (hfin : finalizer ∈ sa.Finalizers) :
    Quiet s (Reconcile env s req).2 := by
  have hc : ContainsFinalizer sa finalizer = true := (containsFinalizer_iff sa finalizer).2 hfin
  unfold Reconcile
  rw [getServiceAccount_found env s _ _ sa h0 hget]
  simp only [reconcileFinalizer, hz, hc, if_true, Bool.not_true, Bool.false_eq_true, if_false]
  exact (Quiet.record s (.getServiceAccount req.Namespace req.Name) rfl).trans
    (Quiet.reconcileHealth env _ sa)

/-- Pods that are not annotated as using the service account are never handed to
`rolloutRestartPod`: the loop over them makes no store call. -/
theorem podLoop_unannotated (env : Env) (saName saSecrets : String) (pods : List Pod)
    (s : Store)
    (h : ∀ p ∈ pods, mapGet p.Annotations env.AnnotationServiceAccountName ≠ saName) :
    podLoop env saName saSecrets pods s = (.ret none, s) := by
  induction pods with
  | nil => rfl
  | cons pod rest ih =>
    unfold podLoop
    rw [if_pos (h pod (List.mem_cons_self _ _))]
    exact ih (fun p hp => h p (List.mem_cons_of_mem _ hp))

/-- The loop over the volumes ends without nil dereference when every volume named as
the service-account volume is projected and has no source or a secret as first
source. -/
theorem volumeLoop_ret (env : Env) (saSecrets : String) (volumes : List Volume)
    (h : ∀ v ∈ volumes, v.Name = env.ServiceAccountVolumeName →
      ∃ p, v.Projected = some p ∧
        (p.Sources = [] ∨ ∃ src rest sec, p.Sources = src :: rest ∧ src.Secret = some sec)) :
    volumeLoop env saSecrets volumes = .ret () := by
  induction volumes with
  | nil => rfl
  | cons v rest ih =>
    have ih2 := ih (fun w hw => h w (List.mem_cons_of_mem _ hw))
    unfold volumeLoop
    by_cases hn : v.Name = env.ServiceAccountVolumeName
    · obtain ⟨p, hp, hsrc⟩ := h v (List.mem_cons_self _ _) hn
      rw [if_pos hn, hp]
      rcases hsrc with hnil | ⟨src, more, sec, hs, hsec⟩
      · simp only [hnil]
        exact ih2
      · simp only [hs, hsec, ite_self]
        exact ih2
    · rw [if_neg hn]
      exact ih2

/-- C1: `checkSecretToken` returns no error exactly when the type of the secret is the
service-account-token type and its subject-name annotation, read as the empty string
when it is missing, is the subject name. -/
theorem checkSecretToken_eq_none_iff (env : Env) (secret : Secret) (subjectName : String) :
    checkSecretToken env secret subjectName = none ↔
      (secret.Type_ = env.SecretTypeServiceAccountToken ∧
        (secret.Annotations.lookup env.ServiceAccountName).getD "" = subjectName) := by
  unfold checkSecretToken mapGet
  by_cases h1 : secret.Type_ = env.SecretTypeServiceAccountToken
  · by_cases h2 : (secret.Annotations.lookup env.ServiceAccountName).getD "" = subjectName
    · simp [h1, h2]
    · simp [h1, h2]
  · simp [h1]

/-- C9: without store failures the effect of `rolloutRestartPod` follows the kind of the
first owner of the pod.  (1) A replica set whose first owner is a deployment: the calls
are the two reads and one update of that deployment, stamped with the current time
under "kubesphere.io/restartedAt"; only the deployments of the store change.  (2) A
stateful set or a daemon set: one read and one update of that owner, stamped the same
way.  (3) No owner, a replica set without owner or whose first owner is not a
deployment, or another kind: no write and no error.  Stamping keeps the key of the
workload and every other annotation. -/
theorem rolloutRestartPod_by_owner_kind (env : Env) (s : Store) (pod : Pod)
    (hf : ∀ n, env.faults n = none) :
    (∀ owner owners rs rsOwner rsOwners deploy,
      pod.OwnerReferences = owner :: owners → owner.Kind = "ReplicaSet" →
      s.findReplicaSet pod.Namespace owner.Name = some rs →
      rs.OwnerReferences = rsOwner :: rsOwners → rsOwner.Kind = "Deployment" →
      findWorkload s.deployments pod.Namespace rsOwner.Name = some deploy →
      rolloutRestartPod env s pod =
        (none, { s with
          deployments :=
            replaceWorkload s.deployments (stamp (env.now (s.log.length + 2)) deploy)
          log := s.log ++ [.getReplicaSet pod.Namespace owner.Name,
            .getDeployment pod.Namespace rsOwner.Name,
            .updateDeployment (stamp (env.now (s.log.length + 2)) deploy)] }) ∧
      deploy.Namespace = pod.Namespace ∧ deploy.Name = rsOwner.Name) ∧
    (∀ owner owners sts,
      pod.OwnerReferences = owner :: owners → owner.Kind = "StatefulSet" →
      findWorkload s.statefulSets pod.Namespace owner.Name = some sts →
      rolloutRestartPod env s pod =
        (none, { s with
          statefulSets :=
            replaceWorkload s.statefulSets (stamp (env.now (s.log.length + 1)) sts)
          log := s.log ++ [.getStatefulSet pod.Namespace owner.Name,
            .updateStatefulSet (stamp (env.now (s.log.length + 1)) sts)] }) ∧
      sts.Namespace = pod.Namespace ∧ sts.Name = owner.Name) ∧
    (∀ owner owners ds,
      pod.OwnerReferences = owner :: owners → owner.Kind = "DaemonSet" →
      findWorkload s.daemonSets pod.Namespace owner.Name = some ds →
      rolloutRestartPod env s pod =
        (none, { s with
          daemonSets :=
            replaceWorkload s.daemonSets (stamp (env.now (s.log.length + 1)) ds)
          log := s.log ++ [.getDaemonSet pod.Namespace owner.Name,
            .updateDaemonSet (stamp (env.now (s.log.length + 1)) ds)] }) ∧
      ds.Namespace = pod.Namespace ∧ ds.Name = owner.Name) ∧
    (pod.OwnerReferences = [] → rolloutRestartPod env s pod = (none, s)) ∧
    (∀ owner owners rs,
      pod.OwnerReferences = owner :: owners → owner.Kind = "ReplicaSet" →
      s.findReplicaSet pod.Namespace owner.Name = some rs →
      (rs.OwnerReferences = [] ∨
        ∃ rsOwner rsOwners, rs.OwnerReferences = rsOwner :: rsOwners ∧
          rsOwner.Kind ≠ "Deployment") →
      rolloutRestartPod env s pod =
        (none, s.record (.getReplicaSet pod.Namespace owner.Name))) ∧
    (∀ owner owners,
      pod.OwnerReferences = owner :: owners → owner.Kind ≠ "ReplicaSet" →
      owner.Kind ≠ "StatefulSet" → owner.Kind ≠ "DaemonSet" →
      rolloutRestartPod env s pod = (none, s)) ∧
    (∀ now w,
      (stamp now w).Namespace = w.Namespace ∧ (stamp now w).Name = w.Name ∧
      (stamp now w).TemplateAnnotations.lookup "kubesphere.io/restartedAt" = some now ∧
      ∀ k, k ≠ "kubesphere.io/restartedAt" →
        (stamp now w).TemplateAnnotations.lookup k = w.TemplateAnnotations.lookup k) := by
  have hfault : ∀ s : Store, env.fault s = none := fault_eq_none env hf
  refine ⟨?_, ?_, ?_, ?_, ?_, ?_, ?_⟩
  · intro owner owners rs rsOwner rsOwners deploy ho hk hrs hro hrk hd
    refine ⟨?_, findWorkload_key _ _ _ _ hd⟩
    simp [rolloutRestartPod, ho, hk, Client.getReplicaSet, hfault, hrs, hro, hrk,
      Client.getDeployment, Client.updateDeployment, Store.record, hd,
      (findWorkload_key _ _ _ _ hd).1, (findWorkload_key _ _ _ _ hd).2, stamp]
  · intro owner owners sts ho hk hd
    refine ⟨?_, findWorkload_key _ _ _ _ hd⟩
    simp [rolloutRestartPod, ho, hk, Client.getStatefulSet, hfault,
      Client.updateStatefulSet, Store.record, hd,
      (findWorkload_key _ _ _ _ hd).1, (findWorkload_key _ _ _ _ hd).2, stamp]
  · intro owner owners ds ho hk hd
    refine ⟨?_, findWorkload_key _ _ _ _ hd⟩
    simp [rolloutRestartPod, ho, hk, Client.getDaemonSet, hfault,
      Client.updateDaemonSet, Store.record, hd,
      (findWorkload_key _ _ _ _ hd).1, (findWorkload_key _ _ _ _ hd).2, stamp]
  · intro ho
    simp [rolloutRestartPod, ho]
  · intro owner owners rs ho hk hrs hcase
    rcases hcase with hnil | ⟨rsOwner, rsOwners, hro, hrk⟩
    · simp [rolloutRestartPod, ho, hk, Client.getReplicaSet, hfault, hrs, hnil]
    · simp [rolloutRestartPod, ho, hk, Client.getReplicaSet, hfault, hrs, hro, hrk]
  · intro owner owners ho h1 h2 h3
    simp [rolloutRestartPod, ho, h1, h2, h3]
  · intro now w
    refine ⟨rfl, rfl, ?_, ?_⟩
    · simp [stamp, lookup_mapSet]
    · intro k hk
      simp [stamp, lookup_mapSet, hk]

/-- Witness of C9 on the pod of replica set "rs1" owned by deployment "d1". -/
theorem rolloutRestartPod_by_owner_kind_witness :
    (∀ n, exEnv.faults n = none) ∧
    rolloutRestartPod exEnv rolloutStore podOfRs1 =
      (none, { rolloutStore with
        deployments := [{ d1 with TemplateAnnotations :=
          [("team", "blue"), ("kubesphere.io/restartedAt", "2024-05-01 10:00:00 +0000 UTC")] }]
        log := [.getReplicaSet "ns1" "rs1", .getDeployment "ns1" "d1",
          .updateDeployment { d1 with TemplateAnnotations :=
            [("team", "blue"),
              ("kubesphere.io/restartedAt", "2024-05-01 10:00:00 +0000 UTC")] }] }) :=
  ⟨fun _ => rfl,
    ((rolloutRestartPod_by_owner_kind exEnv rolloutStore podOfRs1 (fun _ => rfl)).1
      { Kind := "ReplicaSet", Name := "rs1" } [] rs1 { Kind := "Deployment", Name := "d1" } [] d1
      rfl rfl rfl rfl rfl rfl).1⟩

/-- C2: for a stored service account without deletion timestamp and without the
finalizer token, when no store call fails (the name generated for a new secret being
unused), the service account stored after one `Reconcile` carries the finalizers it
had, in order, followed by the finalizer token, which therefore occurs exactly once;
the calls of this `Reconcile` hold exactly one write of a service account, the update
with that object; and `Reconcile` returns no error. -/
theorem Reconcile_attaches_finalizer (env : Env) (s : Store) (req : NamespacedName)
    (sa : ServiceAccount) (hf : ∀ n, env.faults n = none)
    (hget : s.findServiceAccount req.Namespace req.Name = some sa)
    (hz : IsZero sa.DeletionTimestamp = true) (hnf : finalizer ∉ sa.Finalizers)
    (hfresh : sa.Secrets = [] →
      s.findSecret sa.Namespace (generatedName env sa (s.log.length + 1)) = none) :
    ∃ persisted : ServiceAccount,
      (Reconcile env s req).2.findServiceAccount req.Namespace req.Name = some persisted ∧
      persisted.Finalizers = sa.Finalizers ++ [finalizer] ∧
      persisted.Finalizers.count finalizer = 1 ∧
      (newCalls s (Reconcile env s req).2).filter Call.isServiceAccountWrite =
        [.updateServiceAccount persisted] ∧
      ∀ e, (Reconcile env s req).1 ≠ .ret (some e) := by
  have hcount : (sa.Finalizers ++ [finalizer]).count finalizer = 1 := by
    rw [List.count_append, List.count_eq_zero_of_not_mem hnf]
    simp
  by_cases hempty : sa.Secrets = []
  · rw [Reconcile_provision env s req sa hf hget hz hnf hempty (hfresh hempty)]
    refine ⟨{ sa with
      Finalizers := sa.Finalizers ++ [finalizer]
      Secrets := [{ Namespace := sa.Namespace,
                    Name := generatedName env sa (s.log.length + 1) }] },
      ?_, rfl, hcount, ?_, by simp⟩
    · exact find_after_replace s _ _ _ _ sa _ hget ⟨rfl, rfl⟩ rfl (Quiet.refl _)
    · simp [newCalls, Call.isServiceAccountWrite]
  · rw [Reconcile_attach_eq env s req sa hf hget hz hnf hempty]
    refine ⟨{ sa with Finalizers := sa.Finalizers ++ [finalizer] }, ?_, rfl, hcount, ?_,
      reconcileHealth_no_error env hf _ sa⟩
    · exact find_after_replace s _ _ _ _ sa _ hget ⟨rfl, rfl⟩ rfl
        (Quiet.reconcileHealth env _ sa)
    · rw [filter_newCalls _ Call.isServiceAccountWrite _ s _ _ _ rfl
        (Quiet.reconcileHealth env _ sa).2.2]
      · simp [Call.isServiceAccountWrite]
      · intro c hc
        cases c <;> simp_all [Call.isLifecycleWrite, Call.isServiceAccountWrite]

/-- Witness of C2 on the new service account "ns1/sa1". -/
theorem Reconcile_attaches_finalizer_witness :
    (∀ n, exEnv.faults n = none) ∧
    freshStore.findServiceAccount reqSa1.Namespace reqSa1.Name = some sa0 ∧
    IsZero sa0.DeletionTimestamp = true ∧ finalizer ∉ sa0.Finalizers ∧
    ∃ persisted : ServiceAccount,
      (Reconcile exEnv freshStore reqSa1).2.findServiceAccount reqSa1.Namespace reqSa1.Name =
        some persisted ∧
      persisted.Finalizers = sa0.Finalizers ++ [finalizer] ∧
      persisted.Finalizers.count finalizer = 1 ∧
      (newCalls freshStore (Reconcile exEnv freshStore reqSa1).2).filter
        Call.isServiceAccountWrite = [.updateServiceAccount persisted] ∧
      ∀ e, (Reconcile exEnv freshStore reqSa1).1 ≠ .ret (some e) :=
  ⟨fun _ => rfl, rfl, rfl, by decide,
    Reconcile_attaches_finalizer exEnv freshStore reqSa1 sa0 (fun _ => rfl) rfl rfl
      (by decide) (fun _ => rfl)⟩

/-- C3, as amended: for a stored service account without deletion timestamp and
without the finalizer token, when no store call fails: if its credential list is empty
(and the generated name is unused), one `Reconcile` adds exactly one secret to the
store, by exactly one create call; the secret is in the namespace of the service
account, its `GenerateName` is the name of the service account followed by "-", its
name is that text cut to its first 58 bytes followed by the suffix of the store, hence
the name of the service account, "-" and the suffix whenever the name followed by "-"
has at most 58 bytes; its type is the service-account-token type and its subject-name
annotation is the name of the service account, so `checkSecretToken` accepts it; the
stored service account refers to exactly that secret.  If the credential list is not
empty, no secret is created and the stored service account keeps its list. -/
theorem Reconcile_provisions_credential (env : Env) (s : Store) (req : NamespacedName)
    (sa : ServiceAccount) (hf : ∀ n, env.faults n = none)
    (hget : s.findServiceAccount req.Namespace req.Name = some sa)
    (hz : IsZero sa.DeletionTimestamp = true) (hnf : finalizer ∉ sa.Finalizers) :
    (sa.Secrets = [] →
      s.findSecret sa.Namespace (generatedName env sa (s.log.length + 1)) = none →
      ∃ created : Secret,
        (Reconcile env s req).2.secrets = s.secrets ++ [created] ∧
        (newCalls s (Reconcile env s req).2).filter Call.isCreate =
          [.createSecret { created with Name := "" }] ∧
        created.Namespace = sa.Namespace ∧
        created.GenerateName = sa.Name ++ "-" ∧
        created.Name =
          cutGenerateName (sa.Name ++ "-") ++ env.nameSuffix (s.log.length + 1) ∧
        ((sa.Name ++ "-").utf8ByteSize ≤ MaxGeneratedNameLength →
          created.Name = sa.Name ++ "-" ++ env.nameSuffix (s.log.length + 1)) ∧
        created.Type_ = env.SecretTypeServiceAccountToken ∧
        created.Annotations = [(env.ServiceAccountName, sa.Name)] ∧
        checkSecretToken env created sa.Name = none ∧
        ∃ persisted : ServiceAccount,
          (Reconcile env s req).2.findServiceAccount req.Namespace req.Name =
            some persisted ∧
          persisted.Secrets = [{ Namespace := created.Namespace, Name := created.Name }]) ∧
    (sa.Secrets ≠ [] →
      (Reconcile env s req).2.secrets = s.secrets ∧
      (newCalls s (Reconcile env s req).2).filter Call.isCreate = [] ∧
      ∃ persisted : ServiceAccount,
        (Reconcile env s req).2.findServiceAccount req.Namespace req.Name = some persisted ∧
        persisted.Secrets = sa.Secrets) := by
  refine ⟨fun hempty hfresh => ?_, fun hne => ?_⟩
  · rw [Reconcile_provision env s req sa hf hget hz hnf hempty hfresh]
    refine ⟨tokenSecret env sa (generatedName env sa (s.log.length + 1)), rfl, ?_, rfl, rfl,
      rfl, ?_, rfl, rfl, ?_, ?_⟩
    · simp [newCalls, Call.isCreate, tokenSecret]
    · intro hlen
      show generatedName env sa (s.log.length + 1) = _
      unfold generatedName cutGenerateName
      rw [if_neg (Nat.not_lt.2 hlen)]
    · simp [checkSecretToken, tokenSecret, mapGet, List.lookup]
    · exact ⟨{ sa with
        Finalizers := sa.Finalizers ++ [finalizer]
        Secrets := [{ Namespace := sa.Namespace,
                      Name := generatedName env sa (s.log.length + 1) }] },
        find_after_replace s _ _ _ _ sa _ hget ⟨rfl, rfl⟩ rfl (Quiet.refl _), rfl⟩
  · rw [Reconcile_attach_eq env s req sa hf hget hz hnf hne]
    refine ⟨(Quiet.reconcileHealth env _ sa).2.1, ?_, ?_⟩
    · rw [filter_newCalls _ Call.isCreate _ s _ _ _ rfl (Quiet.reconcileHealth env _ sa).2.2]
      · simp [Call.isCreate]
      · intro c hc
        cases c <;> simp_all [Call.isLifecycleWrite, Call.isCreate]
    · exact ⟨{ sa with Finalizers := sa.Finalizers ++ [finalizer] },
        find_after_replace s _ _ _ _ sa _ hget ⟨rfl, rfl⟩ rfl
          (Quiet.reconcileHealth env _ sa), rfl⟩

/-- Witness of C3 on the new service account "ns1/sa1": the secret "sa1-x7k2p" is
created and referred to. -/
theorem Reconcile_provisions_credential_witness :
    (∀ n, exEnv.faults n = none) ∧
    freshStore.findServiceAccount reqSa1.Namespace reqSa1.Name = some sa0 ∧
    IsZero sa0.DeletionTimestamp = true ∧ finalizer ∉ sa0.Finalizers ∧
    ∃ created : Secret,
      (Reconcile exEnv freshStore reqSa1).2.secrets = freshStore.secrets ++ [created] ∧
      (newCalls freshStore (Reconcile exEnv freshStore reqSa1).2).filter Call.isCreate =
        [.createSecret { created with Name := "" }] ∧
      created.Namespace = "ns1" ∧
      created.GenerateName = "sa1" ++ "-" ∧
      created.Name = cutGenerateName ("sa1" ++ "-") ++ "x7k2p" ∧
      (("sa1" ++ "-").utf8ByteSize ≤ MaxGeneratedNameLength →
        created.Name = "sa1" ++ "-" ++ "x7k2p") ∧
      created.Type_ = exEnv.SecretTypeServiceAccountToken ∧
      created.Annotations = [(exEnv.ServiceAccountName, "sa1")] ∧
      checkSecretToken exEnv created "sa1" = none ∧
      ∃ persisted : ServiceAccount,
        (Reconcile exEnv freshStore reqSa1).2.findServiceAccount "ns1" "sa1" =
          some persisted ∧
        persisted.Secrets = [{ Namespace := created.Namespace, Name := created.Name }] :=
  ⟨fun _ => rfl, rfl, rfl, by decide,
    (Reconcile_provisions_credential exEnv freshStore reqSa1 sa0 (fun _ => rfl) rfl rfl
      (by decide)).1 rfl rfl⟩

/-- C3, refuted as first stated: the service account "ns1/aaa...a" has a name of 58
characters, no deletion timestamp, no finalizer and no credential, and no store call
fails; the one secret that `Reconcile` creates is named by the 58 characters and the
suffix "x7k2p", 63 characters in all, and the name of the service account followed by
"-" is not an initial part of it. -/
theorem Reconcile_long_name_not_prefixed :
    (∀ n, exEnv.faults n = none) ∧
    longStore.findServiceAccount reqLong.Namespace reqLong.Name = some saLong ∧
    IsZero saLong.DeletionTimestamp = true ∧ finalizer ∉ saLong.Finalizers ∧
    saLong.Secrets = [] ∧ saLong.Name.length = 58 ∧
    (Reconcile exEnv longStore reqLong).2.secrets =
      [tokenSecret exEnv saLong (saLong.Name ++ "x7k2p")] ∧
    (saLong.Name ++ "x7k2p").length = 63 ∧
    ¬ ((saLong.Name ++ "-").data <+: (saLong.Name ++ "x7k2p").data) :=
  ⟨fun _ => rfl, by decide, rfl, by decide, rfl, by decide, by decide, by decide, by decide⟩

/-- C8: for a stored service account that carries the finalizer token and has a
deletion timestamp, whose references are `pre`, then `ref`, then `post`: if the cleanup
of `pre` went through and the fetch of `ref` fails with a store failure that is not
not-found, `deleteSecretToken` returns that failure and the store ends with the log of
the cleanup of `pre` followed by the failed fetch, so nothing is fetched or deleted for
`post`; `Reconcile` returns the same failure with the same store, writes no service
account, and the stored service account is the loaded one, with its finalizer. -/
theorem Reconcile_cleanup_fails_fast (env : Env) (s s1 : Store) (req : NamespacedName)
    (sa : ServiceAccount) (pre post : List ObjectReference) (ref : ObjectReference)
    (msg : String) (h0 : env.faults s.log.length = none)
    (hget : s.findServiceAccount req.Namespace req.Name = some sa)
    (hz : IsZero sa.DeletionTimestamp = false) (hfin : finalizer ∈ sa.Finalizers)
    (hrefs : sa.Secrets = pre ++ ref :: post)
    (hpre : deleteSecretTokenLoop env sa.Name pre
      (s.record (.getServiceAccount req.Namespace req.Name)) = (none, s1))
    (hfault : env.faults s1.log.length = some msg) :
    deleteSecretToken env (s.record (.getServiceAccount req.Namespace req.Name)) sa =
      (some (.storeFailure msg), s1.record (.getSecret ref.Namespace ref.Name)) ∧
    (Err.storeFailure msg).IsNotFound = false ∧
    Reconcile env s req =
      (.ret (some (.storeFailure msg)), s1.record (.getSecret ref.Namespace ref.Name)) ∧
    (Reconcile env s req).2.secrets = s1.secrets ∧
    (newCalls s (Reconcile env s req).2).filter Call.isServiceAccountWrite = [] ∧
    (Reconcile env s req).2.findServiceAccount req.Namespace req.Name = some sa ∧
    finalizer ∈ sa.Finalizers := by
  have hc : ContainsFinalizer sa finalizer = true := (containsFinalizer_iff sa finalizer).2 hfin
  have hdel : deleteSecretToken env (s.record (.getServiceAccount req.Namespace req.Name)) sa =
      (some (.storeFailure msg), s1.record (.getSecret ref.Namespace ref.Name)) := by
    unfold deleteSecretToken
    rw [hrefs, deleteSecretTokenLoop_append, hpre]
    simp [deleteSecretTokenLoop, Client.getSecret, Env.fault, hfault, Err.IsNotFound]
  have hrec : Reconcile env s req =
      (.ret (some (.storeFailure msg)), s1.record (.getSecret ref.Namespace ref.Name)) := by
    unfold Reconcile
    rw [getServiceAccount_found env s _ _ sa h0 hget]
    simp only [reconcileFinalizer, hz, hc, if_true, Bool.false_eq_true, if_false, hdel]
  have hframe := deleteSecretTokenLoop_frame env sa.Name pre
    (s.record (.getServiceAccount req.Namespace req.Name))
  rw [hpre] at hframe
  simp only [Store.record] at hframe
  refine ⟨hdel, rfl, hrec, ?_, ?_, ?_, hfin⟩
  · rw [hrec]
    rfl
  · rw [hrec]
    obtain ⟨d, hd, hdP⟩ := hframe.2
    have hlog : (s1.record (.getSecret ref.Namespace ref.Name)).log =
        s.log ++ ([.getServiceAccount req.Namespace req.Name] ++ d ++
          [.getSecret ref.Namespace ref.Name]) := by
      simp [Store.record, hd]
    rw [filter_newCalls (fun _ => false) Call.isServiceAccountWrite (fun _ h => by simp at h)
      s _ _ _ hlog (Appends.nil _ _)]
    have hdnil : d.filter Call.isServiceAccountWrite = [] := by
      rw [List.filter_eq_nil_iff]
      intro c hc
      have := hdP c hc
      cases c <;> simp_all [Call.isCleanup, Call.isServiceAccountWrite]
    simp [List.filter_append, hdnil, Call.isServiceAccountWrite]
  · rw [hrec]
    show (s1.record (.getSecret ref.Namespace ref.Name)).findServiceAccount
      req.Namespace req.Name = some sa
    rw [findServiceAccount_congr s (s1.record (.getSecret ref.Namespace ref.Name)) hframe.1]
    exact hget

/-- Witness of C8: the terminating service account refers to "tok1", "other" and
"gone"; "tok1" is removed, then the fetch of "other" fails, and "gone" is not asked
for. -/
theorem Reconcile_cleanup_fails_fast_witness :
    faultyEnv.faults terminatingStore.log.length = none ∧
    IsZero saTerminating.DeletionTimestamp = false ∧ finalizer ∈ saTerminating.Finalizers ∧
    Reconcile faultyEnv terminatingStore reqSa1 =
      (.ret (some (.storeFailure "etcdserver: request timed out")),
        { terminatingStore with
          secrets := [otherSecret]
          log := [.getServiceAccount "ns1" "sa1", .getSecret "ns1" "tok1",
            .deleteSecret "ns1" "tok1", .getSecret "ns1" "other"] }) ∧
    (Reconcile faultyEnv terminatingStore reqSa1).2.findServiceAccount "ns1" "sa1" =
      some saTerminating :=
  have h := Reconcile_cleanup_fails_fast faultyEnv terminatingStore
    { terminatingStore with
      secrets := [otherSecret]
      log := [.getServiceAccount "ns1" "sa1", .getSecret "ns1" "tok1",
        .deleteSecret "ns1" "tok1"] }
    reqSa1 saTerminating [{ Namespace := "ns1", Name := "tok1" }]
    [{ Namespace := "ns1", Name := "gone" }] { Namespace := "ns1", Name := "other" }
    "etcdserver: request timed out" rfl rfl rfl (by decide) rfl rfl rfl
  ⟨rfl, rfl, by decide, h.2.2.1, h.2.2.2.2.2.1⟩

/-- C5, evaluated: the pod of "web" is annotated as using "sa1" and the first source of
its service-account volume names "tok1", the current credential of "sa1"; drift
detection still requests the rollout: the stateful set "web" is read and updated with
a restart stamp. -/
theorem checkServiceAccountRefPod_restarts_current_pod :
    mapGet (podOfWeb "tok1").Annotations exEnv.AnnotationServiceAccountName = sa1.Name ∧
    (podOfWeb "tok1").Volumes =
      [{ Name := exEnv.ServiceAccountVolumeName,
         Projected := some { Sources := [{ Secret := some { Name := "tok1" } }] } }] ∧
    sa1.Secrets.head? = some { Namespace := "ns1", Name := "tok1" } ∧
    checkServiceAccountRefPod exEnv driftFreeStore sa1 =
      (.ret none, { driftFreeStore with
        statefulSets := [webRestarted]
        log := [.listPods "ns1", .getStatefulSet "ns1" "web",
          .updateStatefulSet webRestarted] }) := by
  decide

/-- C6, evaluated: "sa1" has no deletion timestamp, carries the finalizer token, has a
credential and the only pod using it mounts that credential; the second `Reconcile`
nevertheless writes the stateful set "web" again. -/
theorem Reconcile_twice_writes_again :
    IsZero sa1.DeletionTimestamp = true ∧ finalizer ∈ sa1.Finalizers ∧ sa1.Secrets ≠ [] ∧
    (newCalls driftFreeStore (Reconcile exEnv driftFreeStore reqSa1).2).filter Call.isWrite =
      [.updateStatefulSet webRestarted] ∧
    (newCalls (Reconcile exEnv driftFreeStore reqSa1).2
        (Reconcile exEnv (Reconcile exEnv driftFreeStore reqSa1).2 reqSa1).2).filter
      Call.isWrite = [.updateStatefulSet webRestarted] := by
  decide

/-- C7, evaluated: the pod of "web" mounts a stale secret; the read of the stateful
set, the store call with index 3, fails; `rolloutRestartPod` returns the failure, yet
`Reconcile` returns no error. -/
theorem Reconcile_swallows_rollout_failure :
    faultyEnv.faults 3 = some "etcdserver: request timed out" ∧
    rolloutRestartPod faultyEnv
        { driftStore with
          log := [.getServiceAccount "ns1" "sa1", .getSecret "ns1" "tok1", .listPods "ns1"] }
        (podOfWeb "old") =
      (some (.storeFailure "etcdserver: request timed out"),
        { driftStore with
          log := [.getServiceAccount "ns1" "sa1", .getSecret "ns1" "tok1", .listPods "ns1",
            .getStatefulSet "ns1" "web"] }) ∧
    Reconcile faultyEnv driftStore reqSa1 =
      (.ret none, { driftStore with
        log := [.getServiceAccount "ns1" "sa1", .getSecret "ns1" "tok1", .listPods "ns1",
          .getStatefulSet "ns1" "web"] }) := by
  decide

/-- C10, evaluated: a pod that uses "sa1" and whose volume named as the
service-account volume is not projected, or has a first source that is not a secret
source, makes drift detection stop with a nil pointer dereference. -/
theorem checkServiceAccountRefPod_nil_dereference :
    checkServiceAccountRefPod exEnv { driftFreeStore with pods := [podPlainVolume] } sa1 =
      (.nilPointerDereference,
        { driftFreeStore with pods := [podPlainVolume], log := [.listPods "ns1"] }) ∧
    checkServiceAccountRefPod exEnv { driftFreeStore with pods := [podOtherSource] } sa1 =
      (.nilPointerDereference,
        { driftFreeStore with pods := [podOtherSource], log := [.listPods "ns1"] }) := by
  decide

end KsServiceAccount
